import Mathlib

/-!
Shallow embedding of the quiz backend `src/backend/app.py` (FastAPI + PostgreSQL via
asyncpg) and proofs about its store operations.

The PostgreSQL database is modelled as an explicit `Store` value holding the two
tables (`quizzes`, `questions`) as lists of rows in physical insertion order, plus
three counters:
* `next_serial` models the `SERIAL` column of `questions`;
* `next_uuid` models `str(uuid.uuid4())` as a fresh-identifier supply (ids are
  opaque; global uniqueness of uuid4 is modelled by a monotone counter);
* `clock` models `NOW()` as a monotone timestamp source, bumped once per created
  quiz (each `create_quiz` is one transaction, so all its writes share one time).

A `SELECT ... WHERE` without `ORDER BY` returns the matching rows in table order;
`ORDER BY created DESC` is modelled by `List.insertionSort` with the
`byCreatedDesc` relation.  HTTP 404 (`HTTPException(status_code=404)`) is
`StoreError.NotFound`; a backing-store write failure inside the transaction of
`create_quiz` is `StoreError.StorageError`.
-/

namespace QuizTool

/-- Error outcomes surfaced by the store operations: `NotFound` models
`HTTPException(status_code=404, detail="Quiz not found")`, `StorageError` models a
failed database write (an exception raised by `conn.execute`). -/
inductive StoreError where
  | NotFound
  | StorageError
deriving DecidableEq, Repr

/-- `class Question(BaseModel)` — app.py lines 35-40. -/
structure Question where
  question : String
  options : List String
  correct : Int
  question_type : String := "multiple_choice"
  image_url : Option String := none
deriving DecidableEq, Repr

/-- `class Quiz(BaseModel)` — app.py lines 42-45.  `description: Optional[str] = ""`
means an absent field is `some ""` and an explicit JSON `null` is `none`. -/
structure Quiz where
  title : String
  description : Option String := some ""
  questions : List Question
deriving DecidableEq, Repr

/-- One row of table `quizzes` (app.py lines 63-68). -/
structure QuizRow where
  id : Nat
  title : String
  description : Option String
  created : Nat
deriving DecidableEq, Repr

/-- One row of table `questions` (app.py lines 72-80); `id` is the `SERIAL` key,
`quiz_id` the foreign key `REFERENCES quizzes(id) ON DELETE CASCADE`. -/
structure QuestionRow where
  id : Nat
  quiz_id : Nat
  question_text : String
  options : List String
  correct_index : Int
  question_type : String
  image_url : Option String
deriving DecidableEq, Repr

/-- The database state: both tables in physical insertion order plus the
`SERIAL` counter, the uuid supply and the `NOW()` clock. -/
structure Store where
  quizzes : List QuizRow
  questions : List QuestionRow
  next_serial : Nat
  next_uuid : Nat
  clock : Nat
deriving DecidableEq, Repr

/-- A freshly created empty database (what `create_tables` yields on a new DB). -/
def initStore : Store := ⟨[], [], 0, 0, 0⟩

/-- `class QuizResponse(Quiz)` with `id` and `created` (app.py lines 47-49), as the
read endpoints actually build it: both readers set `"description": ... or ""`, so
the description of a response is always a plain string. -/
structure QuizResponse where
  id : Nat
  title : String
  description : String
  created : Nat
  questions : List Question
deriving DecidableEq, Repr

/-- The response dict of `create_quiz` (app.py lines 210-214). -/
structure CreateResponse where
  message : String
  id : Nat
  question_count : Nat
deriving DecidableEq, Repr

/-- Python `d or ""` on an optional string: `None` and `""` are falsy. -/
def pyOrEmpty : Option String → String
  | none => ""
  | some s => if s = "" then "" else s

/-- The question dict built by both readers (app.py lines 130-138 and 164-172). -/
def rowToQuestion (r : QuestionRow) : Question :=
  { question := r.question_text
    options := r.options
    correct := r.correct_index
    question_type := r.question_type
    image_url := r.image_url }

/-- The comparison of `ORDER BY created DESC`: `a` may precede `b` when `a` was
created no earlier than `b`. -/
def byCreatedDesc (a b : QuizRow) : Prop := b.created ≤ a.created

instance : DecidableRel byCreatedDesc :=
  fun a b => inferInstanceAs (Decidable (b.created ≤ a.created))

/-- Assembly of one quiz row into the nested response shape, shared verbatim by
`get_all_quizzes` (app.py lines 124-146) and `get_quiz` (lines 159-180): fetch the
question rows of this quiz in table order and rebuild the nested dict, with
`description` normalised by Python `or ""`. -/
def quizRowToResponse (st : Store) (quiz : QuizRow) : QuizResponse :=
  { id := quiz.id
    title := quiz.title
    description := pyOrEmpty quiz.description
    created := quiz.created
    questions := (st.questions.filter (fun q => q.quiz_id == quiz.id)).map rowToQuestion }

/-- `GET /api/quizzes` (app.py lines 114-148): `SELECT * FROM quizzes ORDER BY
created DESC`, then assemble each quiz with its questions. -/
def get_all_quizzes (st : Store) : List QuizResponse :=
  (List.insertionSort byCreatedDesc st.quizzes).map (quizRowToResponse st)

/-- `GET /api/quizzes/{quiz_id}` (app.py lines 150-180): `fetchrow` returns the
first row matching `id = $1` (or none → 404), then the questions with
`quiz_id = $1` are fetched in table order and assembled. -/
def get_quiz (quiz_id : Nat) (st : Store) : Except StoreError QuizResponse :=
  match st.quizzes.find? (fun r => r.id == quiz_id) with
  | none => .error .NotFound
  | some quiz =>
      let questions_data := st.questions.filter (fun q => q.quiz_id == quiz_id)
      .ok { id := quiz.id
            title := quiz.title
            description := pyOrEmpty quiz.description
            created := quiz.created
            questions := questions_data.map rowToQuestion }

/-- The rows appended by the question-insert loop of `create_quiz` (app.py lines
197-208): one row per question, in payload order, with consecutive serial ids. -/
def questionRows (quiz_id serial : Nat) : List Question → List QuestionRow
  | [] => []
  | q :: qs =>
      { id := serial
        quiz_id := quiz_id
        question_text := q.question
        options := q.options
        correct_index := q.correct
        question_type := q.question_type
        image_url := q.image_url } :: questionRows quiz_id (serial + 1) qs

/-- `POST /api/quizzes` (app.py lines 182-214), successful path: generate a fresh
id, insert the quiz row stamped `NOW()`, insert one question row per question in
payload order, return the response dict.  The whole write is one transaction
(`async with conn.transaction()`); the failure behaviour of that transaction is
modelled separately by `create_quiz_attempt`. -/
def create_quiz (quiz : Quiz) (st : Store) : CreateResponse × Store :=
  let quiz_id := st.next_uuid
  ({ message := "Quiz saved to database!"
     id := quiz_id
     question_count := quiz.questions.length },
   { quizzes := st.quizzes ++
       [{ id := quiz_id, title := quiz.title, description := quiz.description,
          created := st.clock }]
     questions := st.questions ++ questionRows quiz_id st.next_serial quiz.questions
     next_serial := st.next_serial + quiz.questions.length
     next_uuid := st.next_uuid + 1
     clock := st.clock + 1 })

/-- The question-insert loop of `create_quiz` run inside the transaction, with an
explicit failure point: `failAt = some k` means the `INSERT` of the question at
payload index `k` raises (backing store failure); the loop threads the
uncommitted state through each insert.  `idx` is the payload index of the head. -/
def insertQuestionsTx (quiz_id : Nat) (failAt : Option Nat) :
    Nat → List Question → Store → Except StoreError Store
  | _, [], st => .ok st
  | idx, q :: qs, st =>
      if failAt = some idx then .error .StorageError
      else
        insertQuestionsTx quiz_id failAt (idx + 1) qs
          { st with
            questions := st.questions ++
              [{ id := st.next_serial
                 quiz_id := quiz_id
                 question_text := q.question
                 options := q.options
                 correct_index := q.correct
                 question_type := q.question_type
                 image_url := q.image_url }]
            next_serial := st.next_serial + 1 }

/-- `POST /api/quizzes` with the transaction made explicit: the quiz insert and
the question inserts build an uncommitted state; if any insert raises
(`failAt = some k`), `async with conn.transaction()` rolls every write back and
the visible store is exactly the input store; otherwise the whole write commits
at once. -/
def create_quiz_attempt (quiz : Quiz) (st : Store) (failAt : Option Nat) :
    Except StoreError CreateResponse × Store :=
  let quiz_id := st.next_uuid
  let st1 : Store :=
    { st with
      quizzes := st.quizzes ++
        [{ id := quiz_id, title := quiz.title, description := quiz.description,
           created := st.clock }] }
  match insertQuestionsTx quiz_id failAt 0 quiz.questions st1 with
  | .ok st2 =>
      (.ok { message := "Quiz saved to database!"
             id := quiz_id
             question_count := quiz.questions.length },
       { st2 with next_uuid := st.next_uuid + 1, clock := st.clock + 1 })
  | .error e => (.error e, st)

/-- `DELETE /api/quizzes/{quiz_id}` (app.py lines 216-226): `DELETE FROM quizzes
WHERE id = $1` removes the matching quiz rows, and `ON DELETE CASCADE` removes
exactly the question rows whose `quiz_id` refers to a deleted quiz row; the
command tag is `"DELETE n"` with `n` the number of deleted quiz rows, and the
endpoint returns 404 unless it is `"DELETE 1"` — note the delete itself is not
inside a transaction, so the 404 branch does not undo it. -/
def delete_quiz (quiz_id : Nat) (st : Store) : Except StoreError String × Store :=
  let matched := st.quizzes.filter (fun r => r.id == quiz_id)
  let st' : Store :=
    { st with
      quizzes := st.quizzes.filter (fun r => !(r.id == quiz_id))
      questions := st.questions.filter
        (fun q => !(matched.any (fun r => r.id == q.quiz_id))) }
  if matched.length == 1 then (.ok "Quiz deleted successfully", st')
  else (.error .NotFound, st')

/-- Store invariant maintained by uuid4 freshness: every quiz id and every
question's foreign key was drawn from the id supply. -/
def WF (st : Store) : Prop :=
  (∀ r ∈ st.quizzes, r.id < st.next_uuid) ∧
  (∀ q ∈ st.questions, q.quiz_id < st.next_uuid)

/-! ### Basic lemmas about the embedded operations -/

instance : IsTotal QuizRow byCreatedDesc :=
  ⟨fun a b => Nat.le_total b.created a.created⟩

instance : IsTrans QuizRow byCreatedDesc :=
  ⟨fun _ _ _ h1 h2 => Nat.le_trans h2 h1⟩

theorem questionRows_map (quiz_id : Nat) :
    ∀ (serial : Nat) (qs : List Question),
      (questionRows quiz_id serial qs).map rowToQuestion = qs := by
  intro serial qs
  induction qs generalizing serial with
  | nil => rfl
  | cons q qs ih => simp [questionRows, rowToQuestion, ih]

theorem questionRows_quiz_id (quiz_id : Nat) :
    ∀ (serial : Nat) (qs : List Question) (r : QuestionRow),
      r ∈ questionRows quiz_id serial qs → r.quiz_id = quiz_id := by
  intro serial qs
  induction qs generalizing serial with
  | nil => intro r h; exact absurd h (List.not_mem_nil r)
  | cons q qs ih =>
      intro r h
      rcases List.mem_cons.mp h with h | h
      · subst h; rfl
      · exact ih _ r h

theorem questionRows_filter_self (quiz_id serial : Nat) (qs : List Question) :
    (questionRows quiz_id serial qs).filter (fun r => r.quiz_id == quiz_id) =
      questionRows quiz_id serial qs := by
  rw [List.filter_eq_self]
  intro r hr
  simp [questionRows_quiz_id quiz_id serial qs r hr]

theorem questionRows_filter_ne (quiz_id serial j : Nat) (qs : List Question)
    (h : j ≠ quiz_id) :
    (questionRows quiz_id serial qs).filter (fun r => r.quiz_id == j) = [] := by
  rw [List.filter_eq_nil_iff]
  intro r hr
  simp [questionRows_quiz_id quiz_id serial qs r hr, Ne.symm h]

theorem insertQuestionsTx_none (quiz_id : Nat) :
    ∀ (qs : List Question) (idx : Nat) (st : Store),
      insertQuestionsTx quiz_id none idx qs st =
        .ok { st with
              questions := st.questions ++ questionRows quiz_id st.next_serial qs
              next_serial := st.next_serial + qs.length } := by
  intro qs
  induction qs with
  | nil => intro idx st; simp [insertQuestionsTx, questionRows]
  | cons q qs ih =>
      intro idx st
      simp only [insertQuestionsTx, reduceCtorEq, if_false, ih, questionRows,
        List.append_assoc, List.singleton_append, List.length_cons]
      congr 2
      omega

theorem create_quiz_attempt_none (quiz : Quiz) (st : Store) :
    create_quiz_attempt quiz st none =
      (.ok (create_quiz quiz st).1, (create_quiz quiz st).2) := by
  simp [create_quiz_attempt, insertQuestionsTx_none, create_quiz]

theorem insertQuestionsTx_fail (quiz_id : Nat) :
    ∀ (qs : List Question) (k idx : Nat) (st : Store),
      k < qs.length →
      insertQuestionsTx quiz_id (some (idx + k)) idx qs st = .error .StorageError := by
  intro qs
  induction qs with
  | nil => intro k idx st h; exact absurd h (by simp)
  | cons q qs ih =>
      intro k idx st h
      match k with
      | 0 => simp [insertQuestionsTx]
      | k + 1 =>
          have hne : idx + (k + 1) ≠ idx := by omega
          have harith : idx + (k + 1) = (idx + 1) + k := by omega
          rw [insertQuestionsTx, if_neg (by simp [hne]), harith]
          exact ih k (idx + 1) _ (Nat.lt_of_succ_lt_succ h)

theorem find_skip {p : QuizRow → Bool} {l1 l2 : List QuizRow}
    (h : ∀ x ∈ l1, p x = false) :
    List.find? p (l1 ++ l2) = List.find? p l2 := by
  rw [List.find?_append]
  have : List.find? p l1 = none := List.find?_eq_none.mpr (fun x hx => by simp [h x hx])
  simp [this]

theorem orderedInsert_front {a : QuizRow} {l : List QuizRow}
    (h : ∀ x ∈ l, byCreatedDesc a x) :
    List.orderedInsert byCreatedDesc a l = a :: l := by
  cases l with
  | nil => rfl
  | cons b t => exact List.orderedInsert_of_le _ _ (h b (List.mem_cons_self b t))

theorem orderedInsert_filter_neg (p : QuizRow → Bool) (a : QuizRow) (ha : p a = false)
    (l : List QuizRow) :
    (List.orderedInsert byCreatedDesc a l).filter p = l.filter p := by
  induction l with
  | nil => simp [ha]
  | cons b t ih =>
      by_cases hab : byCreatedDesc a b
      · rw [List.orderedInsert_of_le _ _ hab]
        simp [List.filter_cons, ha]
      · simp only [List.orderedInsert, if_neg hab, List.filter_cons]
        cases hpb : p b <;> simp [ih]

theorem orderedInsert_filter_pos (p : QuizRow → Bool) (a : QuizRow) (ha : p a = true)
    (l : List QuizRow) (hs : l.Sorted byCreatedDesc) :
    (List.orderedInsert byCreatedDesc a l).filter p =
      List.orderedInsert byCreatedDesc a (l.filter p) := by
  induction l with
  | nil => simp [ha]
  | cons b t ih =>
      have hbt : ∀ x ∈ t, byCreatedDesc b x := (List.sorted_cons.mp hs).1
      have hst : t.Sorted byCreatedDesc := (List.sorted_cons.mp hs).2
      by_cases hab : byCreatedDesc a b
      · rw [List.orderedInsert_of_le _ _ hab]
        have hfront : ∀ x ∈ (b :: t).filter p, byCreatedDesc a x := by
          intro x hx
          rcases List.mem_cons.mp (List.mem_filter.mp hx).1 with hxb | hxt
          · exact hxb ▸ hab
          · exact Trans.trans hab (hbt x hxt)
        rw [orderedInsert_front hfront]
        simp [List.filter_cons, ha]
      · simp only [List.orderedInsert, if_neg hab, List.filter_cons]
        cases hpb : p b
        · simp [ih hst]
        · simp [ih hst, List.orderedInsert, if_neg hab]

theorem insertionSort_filter (p : QuizRow → Bool) (l : List QuizRow) :
    (List.insertionSort byCreatedDesc l).filter p =
      List.insertionSort byCreatedDesc (l.filter p) := by
  induction l with
  | nil => rfl
  | cons a t ih =>
      by_cases hpa : p a = true
      · rw [List.filter_cons_of_pos hpa]
        simp only [List.insertionSort]
        rw [orderedInsert_filter_pos p a hpa _ (List.sorted_insertionSort byCreatedDesc t), ih]
      · have hpa2 : p a = false := by
          cases hp : p a
          · rfl
          · exact absurd hp hpa
        rw [List.filter_cons_of_neg (by simp [hpa2])]
        simp only [List.insertionSort]
        rw [orderedInsert_filter_neg p a hpa2, ih]

theorem find_filter_keep {α : Type} (p q : α → Bool) (h : ∀ x, p x = true → q x = true)
    (l : List α) :
    List.find? p (l.filter q) = List.find? p l := by
  induction l with
  | nil => rfl
  | cons a t ih =>
      by_cases hqa : q a = true
      · rw [List.filter_cons_of_pos hqa]
        cases hpa : p a
        · rw [List.find?_cons_of_neg _ (by simp [hpa]), List.find?_cons_of_neg _ (by simp [hpa])]
          exact ih
        · rw [List.find?_cons_of_pos _ hpa, List.find?_cons_of_pos _ hpa]
      · have hpa : p a = false := by
          cases hp : p a
          · rfl
          · exact absurd (h a hp) hqa
        rw [List.filter_cons_of_neg (by simp [hqa]), List.find?_cons_of_neg _ (by simp [hpa])]
        exact ih

theorem mem_get_all {st : Store} {resp : QuizResponse} :
    resp ∈ get_all_quizzes st ↔ ∃ row ∈ st.quizzes, quizRowToResponse st row = resp := by
  simp [get_all_quizzes, List.mem_map]

theorem delete_quiz_snd (quiz_id : Nat) (st : Store) :
    (delete_quiz quiz_id st).2 =
      { st with
        quizzes := st.quizzes.filter (fun r => !(r.id == quiz_id))
        questions := st.questions.filter
          (fun q => !((st.quizzes.filter (fun r => r.id == quiz_id)).any
            (fun r => r.id == q.quiz_id))) } := by
  simp only [delete_quiz]
  split <;> rfl

theorem delete_quiz_success_length {quiz_id : Nat} {st : Store} {m : String}
    (h : (delete_quiz quiz_id st).1 = .ok m) :
    (st.quizzes.filter (fun r => r.id == quiz_id)).length = 1 := by
  by_cases hl : (st.quizzes.filter (fun r => r.id == quiz_id)).length = 1
  · exact hl
  · exfalso
    simp only [delete_quiz] at h
    rw [if_neg (by simp [hl])] at h
    exact Except.noConfusion h

theorem delete_quiz_state {quiz_id : Nat} {st : Store}
    (h : (st.quizzes.filter (fun r => r.id == quiz_id)).length = 1) :
    (delete_quiz quiz_id st).2 =
      { st with
        quizzes := st.quizzes.filter (fun r => !(r.id == quiz_id))
        questions := st.questions.filter (fun q => !(q.quiz_id == quiz_id)) } := by
  have hmem : ∀ r ∈ st.quizzes.filter (fun r => r.id == quiz_id), r.id = quiz_id := by
    intro r hr
    simpa using (List.mem_filter.mp hr).2
  have hne : st.quizzes.filter (fun r => r.id == quiz_id) ≠ [] := by
    intro hnil
    rw [hnil] at h
    exact absurd h (by simp)
  obtain ⟨x, hx⟩ := List.exists_mem_of_ne_nil _ hne
  have hany : ∀ q : QuestionRow,
      ((st.quizzes.filter (fun r => r.id == quiz_id)).any (fun r => r.id == q.quiz_id)) =
        (q.quiz_id == quiz_id) := by
    intro q
    by_cases hq : q.quiz_id = quiz_id
    · rw [hq]
      simp only [beq_self_eq_true]
      rw [List.any_eq_true]
      exact ⟨x, hx, by simp [hmem x hx]⟩
    · have h2 : (q.quiz_id == quiz_id) = false := by simp [hq]
      rw [h2]
      rw [List.any_eq_false]
      intro r hr
      rw [hmem r hr]
      simp only [beq_iff_eq]
      exact fun hc => hq hc.symm
  rw [delete_quiz_snd]
  congr 1
  exact List.filter_congr (fun q _ => by rw [hany q])

/-- Central round-trip lemma: creating a quiz in a well-formed store and reading
the returned id back gives exactly the payload, in order, with the description
normalised by Python `or ""`. -/
theorem get_quiz_create (quiz : Quiz) (st : Store) (hwf : WF st) :
    get_quiz (create_quiz quiz st).1.id (create_quiz quiz st).2 =
      .ok { id := st.next_uuid
            title := quiz.title
            description := pyOrEmpty quiz.description
            created := st.clock
            questions := quiz.questions } := by
  have hfind :
      List.find? (fun r => r.id == st.next_uuid) ((create_quiz quiz st).2.quizzes) =
        some { id := st.next_uuid, title := quiz.title, description := quiz.description,
               created := st.clock } := by
    rw [create_quiz]
    rw [find_skip (fun x hx => by
      have := hwf.1 x hx
      simp [Nat.ne_of_lt this])]
    simp
  have hfilter :
      ((create_quiz quiz st).2.questions).filter (fun q => q.quiz_id == st.next_uuid) =
        questionRows st.next_uuid st.next_serial quiz.questions := by
    rw [create_quiz]
    simp only [List.filter_append]
    rw [List.filter_eq_nil_iff.mpr (fun q hq => by
      have := hwf.2 q hq
      simp [Nat.ne_of_lt this])]
    rw [questionRows_filter_self]
    simp
  have hid : (create_quiz quiz st).1.id = st.next_uuid := rfl
  rw [hid, get_quiz, hfind]
  simp [hfilter, questionRows_map]

/-- The invariant `WF` holds of the empty database and is preserved by `create_quiz`
and `delete_quiz`, so it holds of every reachable store. -/
theorem WF_create (quiz : Quiz) (st : Store) (hwf : WF st) :
    WF (create_quiz quiz st).2 := by
  constructor
  · intro r hr
    rcases List.mem_append.mp hr with hold | hnew
    · exact Nat.lt_succ_of_lt (hwf.1 r hold)
    · have hreq : r =
          { id := st.next_uuid, title := quiz.title, description := quiz.description,
            created := st.clock } := by simpa using hnew
      rw [hreq]
      exact Nat.lt_succ_self _
  · intro q hq
    rcases List.mem_append.mp hq with hold | hnew
    · exact Nat.lt_succ_of_lt (hwf.2 q hold)
    · rw [questionRows_quiz_id st.next_uuid st.next_serial quiz.questions q hnew]
      exact Nat.lt_succ_self _

theorem WF_delete (quiz_id : Nat) (st : Store) (hwf : WF st) :
    WF (delete_quiz quiz_id st).2 := by
  rw [delete_quiz_snd]
  constructor
  · intro r hr
    exact hwf.1 r (List.mem_filter.mp hr).1
  · intro q hq
    exact hwf.2 q (List.mem_filter.mp hq).1

/-! ### Concrete sample data (the concrete scenario of spec §8) -/

def mathQuestion : Question :=
  { question := "2+2?"
    options := ["3", "4", "5"]
    correct := 1
    question_type := "multiple_choice"
    image_url := none }

def mathQuiz : Quiz :=
  { title := "Math", description := some "", questions := [mathQuestion] }

def nullDescQuiz : Quiz :=
  { title := "NoDesc", description := none, questions := [] }

def badIndexQuiz : Quiz :=
  { title := "Bad"
    description := some "d"
    questions := [{ question := "q"
                    options := ["a", "b"]
                    correct := 5
                    question_type := "multiple_choice"
                    image_url := none }] }

/-- A store holding two quizzes, created in order `mathQuiz` (id 0) then
`nullDescQuiz` (id 1). -/
def twoQuizStore : Store :=
  (create_quiz nullDescQuiz (create_quiz mathQuiz initStore).2).2

theorem wf_initStore : WF initStore :=
  ⟨fun r hr => absurd hr (List.not_mem_nil r), fun q hq => absurd hq (List.not_mem_nil q)⟩

/-! ### The claims -/

/-- C1: Round-trip fidelity with order — for every quiz payload `quiz` created in a
well-formed store, reading the returned id back yields a response whose questions
list is exactly `quiz.questions`: same length, same order, and every field
(`text`/`question`, `options`, `correctIndex`/`correct`, `questionType`,
`imageUrl`) of each question unchanged. -/
theorem claim_C1_roundtrip_order (st : Store) (quiz : Quiz) (hwf : WF st) :
    get_quiz (create_quiz quiz st).1.id (create_quiz quiz st).2 =
      .ok { id := st.next_uuid
            title := quiz.title
            description := pyOrEmpty quiz.description
            created := st.clock
            questions := quiz.questions } :=
  get_quiz_create quiz st hwf

/-- Witness for C1 at the concrete scenario of spec §8. -/
theorem claim_C1_witness :
    WF initStore ∧
    get_quiz (create_quiz mathQuiz initStore).1.id (create_quiz mathQuiz initStore).2 =
      .ok { id := 0
            title := "Math"
            description := ""
            created := 0
            questions := [mathQuestion] } := by
  refine ⟨wf_initStore, ?_⟩
  have h := claim_C1_roundtrip_order initStore mathQuiz wf_initStore
  simpa [initStore, mathQuiz, pyOrEmpty] using h

/-- C2: Create is atomic on failure — if any question insert raises, the
transaction rolls back: the attempt reports `StorageError`, the visible store is
exactly the input store, and `listAll` and `getById` observe no partial state. -/
theorem claim_C2_atomic_create_failure (st : Store) (quiz : Quiz) (k : Nat)
    (hk : k < quiz.questions.length) :
    create_quiz_attempt quiz st (some k) = (.error .StorageError, st) ∧
    get_all_quizzes (create_quiz_attempt quiz st (some k)).2 = get_all_quizzes st ∧
    ∀ quiz_id, get_quiz quiz_id (create_quiz_attempt quiz st (some k)).2 =
      get_quiz quiz_id st := by
  have hfail :
      insertQuestionsTx st.next_uuid (some k) 0 quiz.questions
        { st with
          quizzes := st.quizzes ++
            [{ id := st.next_uuid, title := quiz.title, description := quiz.description,
               created := st.clock }] } = .error .StorageError := by
    have h := insertQuestionsTx_fail st.next_uuid quiz.questions k 0
      { st with
        quizzes := st.quizzes ++
          [{ id := st.next_uuid, title := quiz.title, description := quiz.description,
             created := st.clock }] } hk
    simpa using h
  have h1 : create_quiz_attempt quiz st (some k) = (.error .StorageError, st) := by
    simp [create_quiz_attempt, hfail]
  exact ⟨h1, by rw [h1], fun quiz_id => by rw [h1]⟩

/-- Witness for C2: failing the only question insert of the concrete quiz. -/
theorem claim_C2_witness :
    0 < mathQuiz.questions.length ∧
    create_quiz_attempt mathQuiz initStore (some 0) = (.error .StorageError, initStore) ∧
    get_all_quizzes (create_quiz_attempt mathQuiz initStore (some 0)).2 =
      get_all_quizzes initStore ∧
    get_quiz 0 (create_quiz_attempt mathQuiz initStore (some 0)).2 =
      get_quiz 0 initStore := by
  have hk : 0 < mathQuiz.questions.length := by decide
  obtain ⟨h1, h2, h3⟩ := claim_C2_atomic_create_failure initStore mathQuiz 0 hk
  exact ⟨hk, h1, h2, h3 0⟩

/-- C7: Create returns the generated identifier — the id in the response of a
successful create is exactly the id stored with the new quiz row, and in a
well-formed store it differs from the id of every quiz already present. -/
theorem claim_C7_create_returns_fresh_id (st : Store) (quiz : Quiz) (hwf : WF st) :
    (create_quiz quiz st).2.quizzes =
      st.quizzes ++
        [{ id := (create_quiz quiz st).1.id, title := quiz.title,
           description := quiz.description, created := st.clock }] ∧
    ∀ r ∈ st.quizzes, r.id ≠ (create_quiz quiz st).1.id := by
  refine ⟨rfl, ?_⟩
  intro r hr
  exact Nat.ne_of_lt (hwf.1 r hr)

/-- Witness for C7. -/
theorem claim_C7_witness :
    WF initStore ∧
    (create_quiz mathQuiz initStore).2.quizzes =
      initStore.quizzes ++
        [{ id := (create_quiz mathQuiz initStore).1.id, title := mathQuiz.title,
           description := mathQuiz.description, created := initStore.clock }] :=
  ⟨wf_initStore, (claim_C7_create_returns_fresh_id initStore mathQuiz wf_initStore).1⟩

/-- C8: correctIndex validation gap — `create` enforces no bound on `correct`:
for a payload containing a question whose correct index is negative or not below
the number of options, the create succeeds (the attempt with no storage failure
returns the success response) and `getById` returns the payload questions, hence
that out-of-range index, unchanged. -/
theorem claim_C8_no_correct_index_validation (st : Store) (quiz : Quiz) (hwf : WF st)
    (hbad : ∃ q ∈ quiz.questions,
      q.correct < 0 ∨ (q.options.length : Int) ≤ q.correct) :
    (create_quiz_attempt quiz st none).1 =
      .ok { message := "Quiz saved to database!", id := st.next_uuid,
            question_count := quiz.questions.length } ∧
    get_quiz (create_quiz quiz st).1.id (create_quiz quiz st).2 =
      .ok { id := st.next_uuid
            title := quiz.title
            description := pyOrEmpty quiz.description
            created := st.clock
            questions := quiz.questions } ∧
    ∃ resp, get_quiz (create_quiz quiz st).1.id (create_quiz quiz st).2 = .ok resp ∧
      ∃ q ∈ resp.questions, q.correct < 0 ∨ (q.options.length : Int) ≤ q.correct := by
  have hrt := get_quiz_create quiz st hwf
  refine ⟨?_, hrt, ?_⟩
  · rw [create_quiz_attempt_none]
    rfl
  · exact ⟨_, hrt, hbad⟩

/-- Witness for C8: a question with `correct = 5` among 2 options is accepted and
read back unchanged. -/
theorem claim_C8_witness :
    (WF initStore ∧
      ∃ q ∈ badIndexQuiz.questions,
        q.correct < 0 ∨ (q.options.length : Int) ≤ q.correct) ∧
    (create_quiz_attempt badIndexQuiz initStore none).1 =
      .ok { message := "Quiz saved to database!", id := 0, question_count := 1 } ∧
    get_quiz (create_quiz badIndexQuiz initStore).1.id
        (create_quiz badIndexQuiz initStore).2 =
      .ok { id := 0
            title := "Bad"
            description := "d"
            created := 0
            questions := badIndexQuiz.questions } := by
  have hbad : ∃ q ∈ badIndexQuiz.questions,
      q.correct < 0 ∨ (q.options.length : Int) ≤ q.correct := by
    refine ⟨badIndexQuiz.questions.head (by decide), by decide, ?_⟩
    right
    decide
  obtain ⟨h1, h2, _⟩ :=
    claim_C8_no_correct_index_validation initStore badIndexQuiz wf_initStore hbad
  refine ⟨⟨wf_initStore, hbad⟩, ?_, ?_⟩
  · simpa [initStore, badIndexQuiz] using h1
  · simpa [initStore, badIndexQuiz, pyOrEmpty] using h2

/-- C9: Description normalization — a quiz created with a `null` description
(`none`) or with the default empty description reads back with description `""`,
both through `getById` and through `listAll`; the readers never surface a null
description (`QuizResponse.description` is a plain string built by `or ""`). -/
theorem claim_C9_description_normalisation (st : Store) (quiz : Quiz) (hwf : WF st)
    (hdesc : quiz.description = none ∨ quiz.description = some "") :
    get_quiz (create_quiz quiz st).1.id (create_quiz quiz st).2 =
      .ok { id := st.next_uuid
            title := quiz.title
            description := ""
            created := st.clock
            questions := quiz.questions } ∧
    ∀ resp ∈ get_all_quizzes (create_quiz quiz st).2,
      resp.id = (create_quiz quiz st).1.id → resp.description = "" := by
  have hpy : pyOrEmpty quiz.description = "" := by
    rcases hdesc with h | h <;> simp [h, pyOrEmpty]
  constructor
  · have h := get_quiz_create quiz st hwf
    rw [hpy] at h
    exact h
  · intro resp hresp hid
    obtain ⟨row, hrow, heq⟩ := mem_get_all.mp hresp
    have hrow2 : row ∈ st.quizzes ++
        [{ id := st.next_uuid, title := quiz.title, description := quiz.description,
           created := st.clock }] := hrow
    have hrid : resp.id = row.id := by
      rw [← heq]
      rfl
    rcases List.mem_append.mp hrow2 with hold | hnew
    · exfalso
      have hlt : row.id < st.next_uuid := hwf.1 row hold
      have hid2 : row.id = st.next_uuid := by
        rw [← hrid]
        exact hid
      exact absurd hid2 (Nat.ne_of_lt hlt)
    · have hrow3 : row =
          { id := st.next_uuid, title := quiz.title, description := quiz.description,
            created := st.clock } := by simpa using hnew
      rw [← heq, hrow3]
      simp [quizRowToResponse, hpy]

/-- Witness for C9: a quiz created with a null description reads back as `""`. -/
theorem claim_C9_witness :
    (WF initStore ∧ (nullDescQuiz.description = none ∨ nullDescQuiz.description = some "")) ∧
    get_quiz (create_quiz nullDescQuiz initStore).1.id
        (create_quiz nullDescQuiz initStore).2 =
      .ok { id := 0
            title := "NoDesc"
            description := ""
            created := 0
            questions := [] } := by
  have hdesc : nullDescQuiz.description = none ∨ nullDescQuiz.description = some "" :=
    Or.inl rfl
  have h := (claim_C9_description_normalisation initStore nullDescQuiz wf_initStore hdesc).1
  refine ⟨⟨wf_initStore, hdesc⟩, ?_⟩
  simpa [initStore, nullDescQuiz] using h

/-- C5: `getById` fails with `NotFound` exactly when no quiz row carries the
requested id; when one does, it returns the first matching row fully
reconstructed with its nested questions in table order. -/
theorem claim_C5_get_by_id (st : Store) (quiz_id : Nat) :
    (get_quiz quiz_id st = .error .NotFound ↔ ∀ r ∈ st.quizzes, r.id ≠ quiz_id) ∧
    ∀ row, List.find? (fun r => r.id == quiz_id) st.quizzes = some row →
      row.id = quiz_id ∧ get_quiz quiz_id st = .ok (quizRowToResponse st row) := by
  constructor
  · constructor
    · intro h r hr hid
      cases hfind : List.find? (fun r => r.id == quiz_id) st.quizzes with
      | none => exact (List.find?_eq_none.mp hfind r hr) (by simp [hid])
      | some row => simp [get_quiz, hfind] at h
    · intro h
      have hfind : List.find? (fun r => r.id == quiz_id) st.quizzes = none :=
        List.find?_eq_none.mpr (fun x hx => by simp [h x hx])
      simp [get_quiz, hfind]
  · intro row hfind
    have hid : row.id = quiz_id := by simpa using List.find?_some hfind
    refine ⟨hid, ?_⟩
    simp only [get_quiz, hfind]
    rw [quizRowToResponse, hid]

/-- Witness for C5's reconstruction branch at a concrete store. -/
theorem claim_C5_witness :
    (get_quiz 5 (create_quiz mathQuiz initStore).2 = .error .NotFound ↔
      ∀ r ∈ (create_quiz mathQuiz initStore).2.quizzes, r.id ≠ 5) := by
  exact (claim_C5_get_by_id (create_quiz mathQuiz initStore).2 5).1

/-- C6: Not-found behaviour of read and delete — on an id carried by no quiz row,
`getById` fails with `NotFound` (not `StorageError`), and `deleteById` fails with
`NotFound` (not `StorageError`) leaving the store exactly unchanged. -/
theorem claim_C6_not_found (st : Store) (quiz_id : Nat)
    (h : ∀ r ∈ st.quizzes, r.id ≠ quiz_id) :
    get_quiz quiz_id st = .error .NotFound ∧
    delete_quiz quiz_id st = (.error .NotFound, st) := by
  have hfind : List.find? (fun r => r.id == quiz_id) st.quizzes = none :=
    List.find?_eq_none.mpr (fun x hx => by simp [h x hx])
  have hfilter : st.quizzes.filter (fun r => r.id == quiz_id) = [] :=
    List.filter_eq_nil_iff.mpr (fun x hx => by simp [h x hx])
  have hkeep : st.quizzes.filter (fun r => !(r.id == quiz_id)) = st.quizzes :=
    List.filter_eq_self.mpr (fun x hx => by simp [h x hx])
  constructor
  · simp [get_quiz, hfind]
  · simp [delete_quiz, hfilter, hkeep]

/-- Witness for C6 on the empty store. -/
theorem claim_C6_witness :
    (∀ r ∈ initStore.quizzes, r.id ≠ 0) ∧
    get_quiz 0 initStore = .error .NotFound ∧
    delete_quiz 0 initStore = (.error .NotFound, initStore) := by
  have h : ∀ r ∈ initStore.quizzes, r.id ≠ 0 :=
    fun r hr => absurd hr (List.not_mem_nil r)
  obtain ⟨h1, h2⟩ := claim_C6_not_found initStore 0 h
  exact ⟨h, h1, h2⟩

theorem filter_cascade_keep (quiz_id j : Nat) (hne : j ≠ quiz_id)
    (qs : List QuestionRow) :
    (qs.filter (fun q => !(q.quiz_id == quiz_id))).filter (fun q => q.quiz_id == j) =
      qs.filter (fun q => q.quiz_id == j) := by
  rw [List.filter_filter]
  refine List.filter_congr (fun x _ => ?_)
  by_cases hx : x.quiz_id = j
  · simp [hx, hne]
  · simp [hx]

/-- C3: Cascade delete — after a successful `deleteById(id)`, `getById(id)` fails
with `NotFound`, no question row with that `quiz_id` survives in the store, and no
quiz with that id is listed by `listAll`. -/
theorem claim_C3_cascade_delete (st : Store) (quiz_id : Nat)
    (h : (delete_quiz quiz_id st).1 = .ok "Quiz deleted successfully") :
    get_quiz quiz_id (delete_quiz quiz_id st).2 = .error .NotFound ∧
    (delete_quiz quiz_id st).2.questions.filter (fun q => q.quiz_id == quiz_id) = [] ∧
    ∀ resp ∈ get_all_quizzes (delete_quiz quiz_id st).2, resp.id ≠ quiz_id := by
  have hst := delete_quiz_state (delete_quiz_success_length h)
  refine ⟨?_, ?_, ?_⟩
  · rw [hst]
    have hfind : List.find? (fun r => r.id == quiz_id)
        (st.quizzes.filter (fun r => !(r.id == quiz_id))) = none := by
      rw [List.find?_eq_none]
      intro x hx
      have h2 := (List.mem_filter.mp hx).2
      simp at h2 ⊢
      exact h2
    simp [get_quiz, hfind]
  · rw [hst]
    simp only []
    rw [List.filter_filter]
    rw [List.filter_eq_nil_iff]
    intro q _
    simp
  · intro resp hresp
    obtain ⟨row, hrow, heq⟩ := mem_get_all.mp hresp
    rw [hst] at hrow
    have h2 := (List.mem_filter.mp hrow).2
    rw [← heq]
    show row.id ≠ quiz_id
    simpa using h2

/-- Witness for C3: create the concrete quiz then delete it. -/
theorem claim_C3_witness :
    (delete_quiz 0 (create_quiz mathQuiz initStore).2).1 =
      .ok "Quiz deleted successfully" ∧
    get_quiz 0 (delete_quiz 0 (create_quiz mathQuiz initStore).2).2 = .error .NotFound ∧
    (delete_quiz 0 (create_quiz mathQuiz initStore).2).2.questions.filter
      (fun q => q.quiz_id == 0) = [] := by
  have hh : (delete_quiz 0 (create_quiz mathQuiz initStore).2).1 =
      .ok "Quiz deleted successfully" := by rfl
  obtain ⟨h1, h2, _⟩ := claim_C3_cascade_delete (create_quiz mathQuiz initStore).2 0 hh
  exact ⟨hh, h1, h2⟩

/-- C10: Delete frame property — a successful `deleteById(id)` leaves every other
quiz untouched: `getById` on any other id is unchanged, and `listAll` afterwards
is exactly the previous listing with the deleted quiz removed (same order, same
contents for everything else). -/
theorem claim_C10_delete_frame (st : Store) (quiz_id : Nat)
    (h : (delete_quiz quiz_id st).1 = .ok "Quiz deleted successfully") :
    (∀ id2, id2 ≠ quiz_id →
        get_quiz id2 (delete_quiz quiz_id st).2 = get_quiz id2 st) ∧
    get_all_quizzes (delete_quiz quiz_id st).2 =
      (get_all_quizzes st).filter (fun resp => !(resp.id == quiz_id)) := by
  have hst := delete_quiz_state (delete_quiz_success_length h)
  constructor
  · intro id2 hne
    rw [hst]
    have hfind : List.find? (fun r => r.id == id2)
        (st.quizzes.filter (fun r => !(r.id == quiz_id))) =
        List.find? (fun r => r.id == id2) st.quizzes := by
      refine find_filter_keep _ _ (fun x hx => ?_) _
      simp at hx ⊢
      rw [hx]
      exact hne
    cases hcase : List.find? (fun r => r.id == id2) st.quizzes with
    | none => simp [get_quiz, hfind, hcase]
    | some row =>
        simp only [get_quiz, hfind, hcase]
        rw [filter_cascade_keep quiz_id id2 hne]
  · rw [hst]
    show (List.insertionSort byCreatedDesc
        (st.quizzes.filter (fun r => !(r.id == quiz_id)))).map _ =
      ((List.insertionSort byCreatedDesc st.quizzes).map (quizRowToResponse st)).filter _
    rw [← insertionSort_filter, List.filter_map]
    have hpred : ((fun resp => !(resp.id == quiz_id)) ∘ quizRowToResponse st) =
        (fun r : QuizRow => !(r.id == quiz_id)) := by
      funext r
      rfl
    rw [hpred]
    refine List.map_congr_left (fun row hrow => ?_)
    have h2 : (row.id == quiz_id) = false := by
      have := (List.mem_filter.mp hrow).2
      simpa using this
    have hne : row.id ≠ quiz_id := by simpa using h2
    show quizRowToResponse
        { st with
          quizzes := st.quizzes.filter (fun r => !(r.id == quiz_id))
          questions := st.questions.filter (fun q => !(q.quiz_id == quiz_id)) } row =
      quizRowToResponse st row
    rw [quizRowToResponse, quizRowToResponse]
    simp only []
    rw [filter_cascade_keep quiz_id row.id hne]

/-- Witness for C10: two quizzes, delete the first, the second is untouched. -/
theorem claim_C10_witness :
    (delete_quiz 0 twoQuizStore).1 = .ok "Quiz deleted successfully" ∧
    get_quiz 1 (delete_quiz 0 twoQuizStore).2 = get_quiz 1 twoQuizStore ∧
    get_all_quizzes (delete_quiz 0 twoQuizStore).2 =
      (get_all_quizzes twoQuizStore).filter (fun resp => !(resp.id == 0)) := by
  have hh : (delete_quiz 0 twoQuizStore).1 = .ok "Quiz deleted successfully" := by
    rfl
  obtain ⟨h1, h2⟩ := claim_C10_delete_frame twoQuizStore 0 hh
  exact ⟨hh, h1 1 (by decide), h2⟩

/-- C4: `listAll` ordering — the listing is sorted by creation time descending, it
contains exactly the stored quizzes (each fully reconstructed), and concretely:
creating quiz A then quiz B on a fresh store makes `listAll` return `[B, A]`. -/
theorem claim_C4_listAll_order (st : Store) (qA qB : Quiz) :
    (get_all_quizzes st).Pairwise (fun x y => y.created ≤ x.created) ∧
    (get_all_quizzes st).Perm (st.quizzes.map (quizRowToResponse st)) ∧
    get_all_quizzes (create_quiz qB (create_quiz qA initStore).2).2 =
      [{ id := 1
         title := qB.title
         description := pyOrEmpty qB.description
         created := 1
         questions := qB.questions },
       { id := 0
         title := qA.title
         description := pyOrEmpty qA.description
         created := 0
         questions := qA.questions }] := by
  refine ⟨?_, ?_, ?_⟩
  · show ((List.insertionSort byCreatedDesc st.quizzes).map
      (quizRowToResponse st)).Pairwise _
    exact List.Pairwise.map _ (fun a b hab => hab)
      (List.sorted_insertionSort byCreatedDesc st.quizzes)
  · show ((List.insertionSort byCreatedDesc st.quizzes).map
      (quizRowToResponse st)).Perm _
    exact (List.perm_insertionSort byCreatedDesc st.quizzes).map _
  · show get_all_quizzes
      { quizzes := [{ id := 0, title := qA.title, description := qA.description,
                      created := 0 },
                    { id := 1, title := qB.title, description := qB.description,
                      created := 1 }]
        questions := questionRows 0 0 qA.questions ++
          questionRows 1 (0 + qA.questions.length) qB.questions
        next_serial := 0 + qA.questions.length + qB.questions.length
        next_uuid := 2
        clock := 2 } = _
    rw [get_all_quizzes]
    rw [show List.insertionSort byCreatedDesc
        [({ id := 0, title := qA.title, description := qA.description,
            created := 0 } : QuizRow),
         { id := 1, title := qB.title, description := qB.description,
           created := 1 }] =
        [{ id := 1, title := qB.title, description := qB.description, created := 1 },
         { id := 0, title := qA.title, description := qA.description, created := 0 }] by
      simp [List.insertionSort, List.orderedInsert, byCreatedDesc]]
    simp only [List.map_cons, List.map_nil, quizRowToResponse]
    rw [List.filter_append, List.filter_append]
    rw [questionRows_filter_self, questionRows_filter_self]
    rw [questionRows_filter_ne 0 0 1 qA.questions (by decide),
        questionRows_filter_ne 1 (0 + qA.questions.length) 0 qB.questions (by decide)]
    simp [questionRows_map]

end QuizTool
